import Mathlib

/-!
Verification development for the AutoGFormBot core (Telegram handler for
user-supervised auto-submission of Google Forms).

The definitions below are a shallow embedding of the state engine in
src/examples/src/browser/handler.py and of the duration question wrapper in
src/examples/src/questions/duration.py.  External collaborators (the selenium
FormProcessor, the chat transport, the telegram job queue) are modelled as
scripted data: each call the engine makes to a collaborator reads the next
scripted response.  The user-data dictionary of a session is modelled as the
structure UserData; Python dict slots that may be absent are Option fields.
-/

namespace AutoGForm

/-- An answer part as passed to the form driver: a plain string or a tuple of
strings (handler.py annotates submission parts as Union[str, Tuple[str]]). -/
inductive AnsPart where
  | s (v : String)
  | t (vs : List String)
deriving DecidableEq, Repr

/-- The shape-shifting value stored under the _CURRENT_ANSWER key (and as a
saved answer inside a preference entry): a plain value (string or tuple), or,
for grid questions, an ordered mapping from sub-question to an optional
sub-answer (an OrderedDict in handler.py). -/
inductive CurAns where
  | plain (p : AnsPart)
  | grid (m : List (String × Option AnsPart))
deriving DecidableEq, Repr

/-- The cache key of a question: the (header, description, requiredFlag)
triple.  get_pref_key lives in the questions base class (not under src/), but
handler.py line 1125 unpacks it as exactly this triple, and spec section 3
defines QuestionIdentity the same way. -/
structure PrefKey where
  header : String
  description : String
  required : Bool
deriving DecidableEq, Repr

/-- Modelled from the spec: the three save-policy values offered by
SavePrefMarkup (markups/ is not under src/).  Spec section 3: savePolicy is
one of AlwaysSave, NeverSave, AskAgain.  The concrete strings are uninterpreted
tokens compared by equality, as in the source. -/
def savePrefAlways : String := "Save Always"

/-- Modelled from the spec: the NeverSave policy token (see savePrefAlways). -/
def savePrefNever : String := "Never Save"

/-- Modelled from the spec: the AskAgain policy token (see savePrefAlways). -/
def savePrefAsk : String := "Ask Again"

/-- Modelled from the spec: SavePrefMarkup.is_option, true exactly on the
three defined policy tokens. -/
def savePrefIsOption (p : String) : Bool :=
  p = savePrefAlways || p = savePrefNever || p = savePrefAsk

/-- Modelled from the spec: the skip sentinel BaseOptionMarkup.get_skip()
(markups/ is not under src/); an uninterpreted token. -/
def skipSentinel : String := "Skip"

/-- A per-question preference entry: the save policy under _PREF_KEY (kept as
a raw string so that undefined policy values can be represented, as the code
guards with SavePrefMarkup.is_option) and the optional saved answer under
_ANSWER_KEY. -/
structure LocalEntry where
  pref : String
  answer : Option CurAns
deriving DecidableEq, Repr

/-- The _SAVE_PREFS slot: an optional global policy under _GLOBAL_SAVE_PREF
and an optional per-question map under _LOCAL_SAVE_PREF (insertion-ordered
dict, modelled as an association list). -/
structure SavePrefs where
  global : Option String
  localMap : Option (List (PrefKey × LocalEntry))
deriving DecidableEq, Repr

/-- The dynamic type of a question instance, as far as the handler dispatches
on it (isinstance checks in _obtain_question). -/
inductive QKind where
  | text
  | date
  | time
  | datetime
  | duration
  | menu
  | checkbox
  | grid
deriving DecidableEq, Repr

/-- A discovered question together with the scripted outcome of the driver
answer_question call for it (the FormProcessor is an external collaborator;
its replies are data). -/
structure QuestionData where
  header : String
  description : String
  required : Bool
  kind : QKind
  subQuestions : List String
  submitOk : Option Bool
deriving DecidableEq, Repr

/-- The key triple of a question (get_pref_key). -/
def prefKeyOf (q : QuestionData) : PrefKey :=
  ⟨q.header, q.description, q.required⟩

/-- Modelled from the spec: the FormProcessor handle.  processor.py is not
under src/; per spec section 6 the driver exposes getIdleLink, so the handle
carries the form link it was instantiated from and get_browser().get_link()
returns it. -/
structure Driver where
  link : String
deriving DecidableEq, Repr

/-- The markup kinds _obtain_question instantiates for a question. -/
inductive MarkupKind where
  | datetimeM
  | dateM
  | timeM
  | timeZeroM
  | menuM
deriving DecidableEq, Repr

/-- The markup chosen for a question kind (lines 1218-1228 of handler.py);
text questions get none, and None is then stored under _CURRENT_MARKUP. -/
def markupFor : QKind → Option MarkupKind
  | .datetime => some .datetimeM
  | .date => some .dateM
  | .time => some .timeM
  | .duration => some .timeZeroM
  | .menu => some .menuM
  | .checkbox => some .menuM
  | .grid => some .menuM
  | .text => none

/-- The per-user session state: the user_data slots the form-processing flow
reads and writes.  processor models _PROCESSOR (idle link string or active
FormProcessor handle); currentMarkup is doubly optional because Python can
store the key with value None (outer none = key absent, inner none = key
present holding None). -/
structure UserData where
  processor : Option (String ⊕ Driver)
  currentQuestion : Option QuestionData
  currentAnswer : Option CurAns
  currentMarkup : Option (Option MarkupKind)
  savePrefs : Option SavePrefs
deriving DecidableEq, Repr

/-- The conversation-state tokens the handlers return (the random signatures
of handler.py, as an enumeration), plus an explicit token for an uncaught
Python exception escaping the handler. -/
inductive Token where
  | stopping
  | returnTok
  | skipOrAnswer
  | confirmSubmit
  | saveAnswer
  | selectStart
  | confirmAdd
  | cancel
  | noop
  | exception
deriving DecidableEq, Repr

/-- User-visible interactions emitted by a traversal step. -/
inductive Prompt where
  | formSubmitted
  | confirmSaved
  | recommend
  | inputPrompt
  | savePrompt
  | errorNotice
deriving DecidableEq, Repr

/-- Driver calls that submit an answer (_submit_to_google_forms). -/
inductive SubmitEvent where
  | skip
  | answer (parts : List (Option AnsPart))
deriving DecidableEq, Repr

/-- One scripted reply of processor.get_question, together with (for a real
question) the scripted get_info outcome and the scripted retry behaviour:
each retry entry is (refresh_section succeeded, next get_info outcome).
get_info returns Optional[bool]: some true = success, some false = stale
element, none = fatal. -/
inductive Fetch where
  | complete
  | failed
  | q (qd : QuestionData) (infoFirst : Option Bool) (infoRetries : List (Bool × Option Bool))
deriving DecidableEq, Repr

/-- The observable outcome of one handler invocation: the returned state
token, the final session state, the emitted prompts and the driver submit
calls, in order. -/
structure StepOut where
  token : Token
  state : UserData
  prompts : List Prompt
  submits : List SubmitEvent
deriving DecidableEq, Repr

/-- Internal outcome of processing one question: either a final StepOut, or
the directive to clear the current pointers and recurse to the next question
(the AlwaysSave auto-submission path), carrying the submit events made so
far. -/
inductive ProcOut where
  | final (token : Token) (state : UserData) (prompts : List Prompt) (submits : List SubmitEvent)
  | recurse (submits : List SubmitEvent)
deriving DecidableEq, Repr

/-- Dict lookup in the per-question preference map. -/
def lookupPK (l : List (PrefKey × LocalEntry)) (k : PrefKey) : Option LocalEntry :=
  (l.find? (fun e => e.1 = k)).map (fun e => e.2)

/-- Dict pop in the per-question preference map (removes the entry with the
given key; Python dicts keep at most one entry per key). -/
def eraseAssocPK (l : List (PrefKey × LocalEntry)) (k : PrefKey) : List (PrefKey × LocalEntry) :=
  l.eraseP (fun e => decide (e.1 = k))

/-- Dict update in the per-question preference map: replace the entry at the
key, appending a fresh entry when absent (Python dict assignment). -/
def setAssocPK (l : List (PrefKey × LocalEntry)) (k : PrefKey) (v : LocalEntry) :
    List (PrefKey × LocalEntry) :=
  match l with
  | [] => [(k, v)]
  | e :: rest => if e.1 = k then (k, v) :: rest else e :: setAssocPK rest k v

/-- Dict update in a grid answer mapping (Python dict assignment by key). -/
def setAssoc (l : List (String × Option AnsPart)) (k : String) (v : Option AnsPart) :
    List (String × Option AnsPart) :=
  match l with
  | [] => [(k, v)]
  | e :: rest => if e.1 = k then (k, v) :: rest else e :: setAssoc rest k v

/-- Dict get in a grid answer mapping: None both for a missing key and for a
key holding None, as Python dict.get. -/
def getAssoc (l : List (String × Option AnsPart)) (k : String) : Option AnsPart :=
  match l.find? (fun e => e.1 = k) with
  | some e => e.2
  | none => none

/-- The first sub-question whose slot is still None, in insertion order
(lines 1153-1156 of handler.py). -/
def firstNoneKey : List (String × Option AnsPart) → Option String
  | [] => none
  | (k, none) :: _ => some k
  | _ :: rest => firstNoneKey rest

/-- Whether the ordered mapping still has an unfilled sub-answer
(None in OrderedDict.values()). -/
def hasNoneValue (m : List (String × Option AnsPart)) : Bool :=
  m.any (fun e => e.2.isNone)

/-- Python truthiness of a stored answer value: empty strings, tuples and
mappings are falsy. -/
def curAnsTruthy : CurAns → Bool
  | .plain (.s v) => v ≠ ""
  | .plain (.t vs) => !vs.isEmpty
  | .grid m => !m.isEmpty

/-- Truthiness of an optional stored answer (None is falsy). -/
def optTruthy : Option CurAns → Bool
  | none => false
  | some a => curAnsTruthy a

/-- Whether a stored answer value is grid-shaped (isinstance OrderedDict). -/
def isGridAns : CurAns → Bool
  | .grid _ => true
  | .plain _ => false

/-- The submission parts of an answer value, exactly as both submission sites
dispatch (handler.py lines 1101-1106 and 1293-1301): OrderedDict values, or
tuple elements, or the single stringified value. -/
def partsOf : CurAns → List (Option AnsPart)
  | .grid m => m.map (fun e => e.2)
  | .plain (.t vs) => vs.map (fun v => some (.s v))
  | .plain (.s v) => [some (.s v)]

/-- _submit_to_google_forms: no answers is a no-op success; a first part equal
to the skip sentinel or "/skip" takes the skip path; otherwise all parts are
forwarded in order.  The Option Bool result of the driver call is scripted
(ok); an empty call never reaches the driver. -/
def submitToGoogleForms (ok : Option Bool) (parts : List (Option AnsPart)) :
    Option Bool × List SubmitEvent :=
  match parts with
  | [] => (some true, [])
  | p :: _ =>
    if p = some (.s skipSentinel) || p = some (.s "/skip") then (ok, [.skip])
    else (ok, [.answer parts])

/-- The close-match predicate of _obtain_question lines 1124-1126: header
identical, and description or required flag identical. -/
def closeMatchPred (k c : PrefKey) : Bool :=
  c.header = k.header && (c.description = k.description || c.required = k.required)

/-- The close-match scan (lines 1122-1129): first stored identity, in
insertion order, satisfying the close-match predicate. -/
def closeMatchFind (k : PrefKey) (prefs : List (PrefKey × LocalEntry)) :
    Option (PrefKey × LocalEntry) :=
  prefs.find? (fun e => closeMatchPred k e.1)

/-- The stale-element retry loop of _obtain_question lines 1044-1052: while
get_info reports stale (some false), ask the driver to refresh the section;
a failed refresh turns the result into none (fatal), a successful refresh
re-runs get_info on the scripted next outcome.  An exhausted script while
still stale keeps the stale result (the theorems only use adequate
scripts). -/
def infoRetryLoop : Option Bool → List (Bool × Option Bool) → Option Bool
  | some false, (refreshOk, next) :: rest =>
    if refreshOk then infoRetryLoop next rest else none
  | some false, [] => some false
  | r, _ => r

/-- _remove_current_pointers: drop the _CURRENT_QUESTION and _CURRENT_ANSWER
slots. -/
def removeCurrentPointers (s : UserData) : UserData :=
  { s with currentQuestion := none, currentAnswer := none }

/-- The guard of the preference region (line 1074 and 1077): preferences are
only consulted when to_process is set, _SAVE_PREFS exists and holds a
_LOCAL_SAVE_PREF map. -/
def activeLocalPrefs (toProcess : Bool) (s : UserData) :
    Option (List (PrefKey × LocalEntry)) :=
  if toProcess then
    match s.savePrefs with
    | some sp => sp.localMap
    | none => none
  else none

/-- The markup region of _obtain_question (lines 1211-1242): a stored markup
that is not a BaseOptionMarkup (a stored None) is fatal; otherwise the stored
markup is reused, or a fresh one for the question kind is stored (possibly
None for text questions), and the user is prompted for input. -/
def markupRegion (s : UserData) (qd : QuestionData) : ProcOut :=
  match s.currentMarkup with
  | some (some _) => .final .skipOrAnswer s [.inputPrompt] []
  | some none => .final .stopping s [] []
  | none =>
    .final .skipOrAnswer { s with currentMarkup := some (markupFor qd.kind) } [.inputPrompt] []

/-- The confirmation prompt of lines 1191-1209: a saved-answer prompt when the
preference is AskAgain, an answer recommendation otherwise (in particular when
the answer came from a close match and the preference was discarded). -/
def promptConfirm (s : UserData) (pref? : Option String) : ProcOut :=
  .final .confirmSubmit s
    [if pref? = some savePrefAsk then Prompt.confirmSaved else Prompt.recommend] []

/-- The saved-answer display of _obtain_question lines 1172-1209 plus the
fall-through to the markup region: when processing preferences and a truthy
answer is at hand, store it as the current answer if none exists, for a grid
question extract and store the sub-answer for the pending sub-question, and
prompt for confirmation; otherwise prompt for normal input. -/
def displayTail (toProcess : Bool) (s : UserData) (qd : QuestionData)
    (answer? : Option CurAns) (pref? : Option String) (subQ? : Option String) : ProcOut :=
  if toProcess && optTruthy answer? then
    let s1 := if s.currentAnswer = none then { s with currentAnswer := answer? } else s
    match subQ? with
    | some subQ =>
      match answer? with
      | some (.grid ma) =>
        match s1.currentAnswer with
        | some (.grid m) =>
          let sub := getAssoc ma subQ
          promptConfirm { s1 with currentAnswer := some (.grid (setAssoc m subQ sub)) } pref?
        | _ => .final .exception s1 [] []
      | _ => .final .exception s1 [] []
    | none => promptConfirm s1 pref?
  else markupRegion s qd

/-- The grid region of _obtain_question (lines 1147-1169) followed by
displayTail: for a grid question initialise the ordered sub-answer mapping if
absent, pick the first unfilled sub-question (fatal if none), and discard a
truthy saved answer that is not grid-shaped by popping its exact preference
entry (a missing entry raises KeyError, modelled as an escaping exception, as
is an existing current answer that is not a mapping). -/
def displayRegion (toProcess : Bool) (s : UserData) (qd : QuestionData)
    (answer? : Option CurAns) (pref? : Option String) : ProcOut :=
  if qd.kind = .grid then
    let s1 :=
      if s.currentAnswer = none then
        { s with currentAnswer := some (.grid (qd.subQuestions.map (fun q => (q, none)))) }
      else s
    match s1.currentAnswer with
    | some (.grid m) =>
      match firstNoneKey m with
      | none => .final .stopping s1 [] []
      | some subQ =>
        match answer? with
        | some a =>
          if curAnsTruthy a && !isGridAns a then
            match s1.savePrefs with
            | some sp =>
              match sp.localMap with
              | some lm =>
                if (lookupPK lm (prefKeyOf qd)).isSome then
                  let sp2 := { sp with localMap := some (eraseAssocPK lm (prefKeyOf qd)) }
                  let s2 := { s1 with savePrefs := some sp2 }
                  displayTail toProcess s2 qd none pref? (some subQ)
                else .final .exception s1 [] []
              | none => .final .exception s1 [] []
            | none => .final .exception s1 [] []
          else displayTail toProcess s1 qd (some a) pref? (some subQ)
        | none => displayTail toProcess s1 qd none pref? (some subQ)
    | _ => .final .exception s1 [] []
  else displayTail toProcess s qd answer? pref? none

/-- The per-question step of _obtain_question after a question instance is at
hand (lines 1072-1242): consult the per-question preference map when
processing; an exact match with an undefined policy is fatal; an exact match
with AlwaysSave and a truthy saved answer submits it directly and directs the
caller to clear the pointers and recurse (fatal if the driver submission
fails); a NeverSave match with a recorded answer only logs; without an exact
match the close-match scan may surface an answer whose policy is discarded. -/
def processQuestion (toProcess : Bool) (s : UserData) (qd : QuestionData) : ProcOut :=
  match activeLocalPrefs toProcess s with
  | some prefs =>
    match lookupPK prefs (prefKeyOf qd) with
    | some entry =>
      if !savePrefIsOption entry.pref then .final .stopping s [] []
      else
        match entry.answer with
        | some a =>
          if curAnsTruthy a && (entry.pref = savePrefAlways) then
            let pr := submitToGoogleForms qd.submitOk (partsOf a)
            if pr.1 = some true then .recurse pr.2
            else .final .stopping s [] pr.2
          else displayRegion toProcess s qd entry.answer (some entry.pref)
        | none => displayRegion toProcess s qd none (some entry.pref)
    | none =>
      let answer? : Option CurAns :=
        match closeMatchFind (prefKeyOf qd) prefs with
        | some (_, e) => e.answer
        | none => none
      displayRegion toProcess s qd answer? none
  | none => displayRegion toProcess s qd none none

/-- The question-fetch loop of _obtain_question (lines 1022-1056 and the
recursive calls): read the next scripted driver reply; on form completion
close the browser and store the idle link back into the _PROCESSOR slot; on
failure stop; on a question, cache it, run the stale-retry loop over its
scripted get_info outcomes (fatal unless it ends in success) and process it.
A recursion directive clears the current pointers and continues on the rest
of the script with to_process true, as the Python recursive call does.  An
exhausted script stops (the driver never answered; theorems use adequate
scripts). -/
def fetchLoop (toProcess : Bool) (d : Driver) (s : UserData) : List Fetch → StepOut
  | [] => ⟨.stopping, s, [], []⟩
  | f :: rest =>
    match f with
    | .complete => ⟨.returnTok, { s with processor := some (.inl d.link) }, [.formSubmitted], []⟩
    | .failed => ⟨.stopping, s, [], []⟩
    | .q qd infoFirst infoRetries =>
      let s1 := { s with currentQuestion := some qd }
      if infoRetryLoop infoFirst infoRetries ≠ some true then ⟨.stopping, s1, [], []⟩
      else
        match processQuestion toProcess s1 qd with
        | .final t s2 ps evs => ⟨t, s2, ps, evs⟩
        | .recurse evs =>
          let r := fetchLoop true d (removeCurrentPointers s1) rest
          ⟨r.token, r.state, r.prompts, evs ++ r.submits⟩

/-- The handle used for this step: an idle link instantiates a fresh
FormProcessor on it (line 1012 of handler.py), an active handle is reused. -/
def driverOf : String ⊕ Driver → Driver
  | .inl link => ⟨link⟩
  | .inr d0 => d0

/-- _obtain_question: a missing _PROCESSOR slot is fatal; an idle link
instantiates a FormProcessor from it; a cached current question is processed
in place, otherwise the next question is fetched from the scripted driver.
The AlwaysSave recursion clears the pointers and continues on the remaining
script. -/
def obtainQuestion (toProcess : Bool) (s : UserData) (script : List Fetch) : StepOut :=
  match s.processor with
  | none => ⟨.stopping, s, [], []⟩
  | some p =>
    let d : Driver := driverOf p
    let s1 := { s with processor := some (.inr d) }
    match s1.currentQuestion with
    | none => fetchLoop toProcess d s1 script
    | some qd =>
      match processQuestion toProcess s1 qd with
      | .final t s2 ps evs => ⟨t, s2, ps, evs⟩
      | .recurse evs =>
        let r := fetchLoop true d (removeCurrentPointers s1) script
        ⟨r.token, r.state, r.prompts, evs ++ r.submits⟩

/-- Clearing of the most recent sub-answer on rejection (_submit_answer lines
1306-1311): walk the ordered mapping from the end and reset the first slot
holding a value back to None; auxiliary form returning none when every slot is
already None. -/
def clearLastFilledAux : List (String × Option AnsPart) → Option (List (String × Option AnsPart))
  | [] => none
  | e :: rest =>
    match clearLastFilledAux rest with
    | some rest2 => some (e :: rest2)
    | none => if e.2.isSome then some ((e.1, none) :: rest) else none

/-- Clearing of the most recent sub-answer on rejection: the mapping is
unchanged when no slot holds a value. -/
def clearLastFilled (m : List (String × Option AnsPart)) : List (String × Option AnsPart) :=
  (clearLastFilledAux m).getD m

/-- The save-answer region of _submit_answer (lines 1318-1368): build the
default preference record (global AskAgain; per-question policy defaulting to
the stored global policy or AskAgain), upsert the missing layers, then apply
the per-question policy: an undefined value is fatal, AlwaysSave records the
answer and recurses, NeverSave discards and recurses, AskAgain prompts the
user whether to save. -/
def saveRegion (s : UserData) (qd : QuestionData) (ca : CurAns) (evs : List SubmitEvent)
    (script : List Fetch) : StepOut :=
  let k := prefKeyOf qd
  let defaultPref : String :=
    match s.savePrefs with
    | some sp => sp.global.getD savePrefAsk
    | none => savePrefAsk
  let sp1 : SavePrefs :=
    match s.savePrefs with
    | none => ⟨some savePrefAsk, some [(k, ⟨defaultPref, none⟩)]⟩
    | some sp =>
      match sp.localMap with
      | none => { sp with localMap := some [(k, ⟨defaultPref, none⟩)] }
      | some lm =>
        if (lookupPK lm k).isSome then sp
        else { sp with localMap := some (lm ++ [(k, ⟨defaultPref, none⟩)]) }
  let s1 := { s with savePrefs := some sp1 }
  let entry : LocalEntry := (lookupPK (sp1.localMap.getD []) k).getD ⟨defaultPref, none⟩
  if !savePrefIsOption entry.pref then ⟨.stopping, s1, [], evs⟩
  else if entry.pref = savePrefAlways then
    let sp2 := { sp1 with localMap := some (setAssocPK (sp1.localMap.getD []) k ⟨entry.pref, some ca⟩) }
    let s2 := { s1 with savePrefs := some sp2 }
    let r := obtainQuestion true (removeCurrentPointers s2) script
    ⟨r.token, r.state, r.prompts, evs ++ r.submits⟩
  else if entry.pref = savePrefNever then
    let r := obtainQuestion true (removeCurrentPointers s1) script
    ⟨r.token, r.state, r.prompts, evs ++ r.submits⟩
  else ⟨.saveAnswer, s1, [.savePrompt], evs⟩

/-- _submit_answer: after the initial sanity checks (callback data present,
answer and question cached, processor active) the _CURRENT_MARKUP slot is
popped; unrecognised callback data is fatal.  Confirmation either moves to
the next unfilled sub-question of a grid, or submits the whole answer to the
driver (fatal unless it reports success) and enters the save region.
Rejection resets the most recently filled sub-answer of a grid mapping and
re-displays the current question without preference processing.  The callback
data is modelled post TFMarkup.confirm, an Option Bool (markups/ is not under
src/). -/
def submitAnswer (s : UserData) (data : Option Bool) (script : List Fetch) : StepOut :=
  match s.currentAnswer, s.currentQuestion, s.processor with
  | some ca, some qd, some (.inr _) =>
    let s1 := { s with currentMarkup := none }
    match data with
    | none => ⟨.stopping, s1, [], []⟩
    | some true =>
      if (match ca with | .grid m => hasNoneValue m | .plain _ => false) then
        obtainQuestion true s1 script
      else
        let pr := submitToGoogleForms qd.submitOk (partsOf ca)
        if pr.1 ≠ some true then ⟨.stopping, s1, [], pr.2⟩
        else saveRegion s1 qd ca pr.2 script
    | some false =>
      let s2 :=
        match ca with
        | .grid m => { s1 with currentAnswer := some (.grid (clearLastFilled m)) }
        | .plain _ => s1
      obtainQuestion false s2 script
  | _, _, _ => ⟨.stopping, s, [], []⟩

/-- _auto_submit, the scheduled-job callback: when the _PROCESSOR slot already
holds an active FormProcessor the fire is logged and returns immediately with
no effect; otherwise the traversal is run, and a fatal outcome triggers the
cleanup of lines 292-298: current pointers removed, the browser closed and the
idle link stored back into _PROCESSOR, and an error notice displayed. -/
def autoSubmit (s : UserData) (script : List Fetch) : StepOut :=
  match s.processor with
  | some (.inr _) => ⟨.noop, s, [], []⟩
  | _ =>
    let r := obtainQuestion true s script
    if r.token = .stopping then
      let s1 := removeCurrentPointers r.state
      let s2 :=
        match s1.processor with
        | some (.inr d) => { s1 with processor := some (.inl d.link) }
        | _ => s1
      ⟨.stopping, s2, r.prompts ++ [.errorNotice], r.submits⟩
    else r

/-- The retry policy as the spec states it (spec sections 4.1 step 2 and 7):
on a stale report, request one re-discovery and retry metadata retrieval
exactly once; if the single retry is not a success, give up fatally.  This
definition follows the words of the spec and exists only to be compared with
infoRetryLoop, which is translated from the source. -/
def specInfoRetryOnce : Option Bool → List (Bool × Option Bool) → Option Bool
  | some false, (refreshOk, next) :: _ =>
    if refreshOk then (if next = some true then some true else none) else none
  | some false, [] => some false
  | r, _ => r

/-- A UTC start instant as parsed from the derived job name
(datetime.strptime with format "%Y-%m-%d %H:%M"). -/
structure StartDT where
  year : Nat
  month : Nat
  day : Nat
  hour : Nat
  minute : Nat
deriving DecidableEq, Repr

/-- The trigger registered with the job queue, recording exactly the
arguments _confirm_add passes: run_repeating with an interval in seconds and
the first fire instant, run_daily with a UTC time of day, or run_monthly with
a UTC time of day and a day of month (day_is_strict false). -/
inductive Trigger where
  | repeating (intervalSecs : Nat) (first : StartDT)
  | daily (hour minute : Nat)
  | monthly (hour minute day : Nat)
deriving DecidableEq, Repr

/-- A scheduled job: the derived name is the sole lookup and removal key. -/
structure Job where
  name : String
  trigger : Trigger
deriving DecidableEq, Repr

/-- job_queue.get_jobs_by_name. -/
def getJobsByName (queue : List Job) (n : String) : List Job :=
  queue.filter (fun j => j.name = n)

/-- Helper: strip a separator from the front of a character list, returning
the remainder exactly when the list starts with the separator. -/
def stripSep? : List Char → List Char → Option (List Char)
  | [], l => some l
  | _ :: _, [] => none
  | s :: ss, c :: cs => if c = s then stripSep? ss cs else none

/-- Fuel-driven splitting loop over characters: greedy left-to-right match of
the separator, as Python str.split with a non-empty separator.  The fuel is
always at least the input length plus one, so it never runs out. -/
def splitLoop (sep : List Char) : Nat → List Char → List Char → List (List Char)
  | 0, l, acc => [acc.reverse ++ l]
  | _ + 1, [], acc => [acc.reverse]
  | fuel + 1, c :: cs, acc =>
    match stripSep? sep (c :: cs) with
    | some rest => acc.reverse :: splitLoop sep fuel rest []
    | none => splitLoop sep fuel cs (c :: acc)

/-- Python str.split with a non-empty string separator (kernel-computable
counterpart of the library splitter). -/
def pySplit (s sep : String) : List String :=
  if sep = "" then [s]
  else (splitLoop sep.toList (s.toList.length + 1) s.toList []).map List.asString

/-- The numeric value of a non-empty all-digit character list; none
otherwise (the behaviour of Python int() on an unsigned digit string). -/
def digitsToNat? (l : List Char) : Option Nat :=
  if l = [] then none
  else if l.all (fun c => c.isDigit) then
    some (l.foldl (fun n c => 10 * n + (c.toNat - 48)) 0)
  else none

/-- datetime.strptime(start, "%Y-%m-%d %H:%M"), modelled over the Python
standard library (external to the repository): digits around the separators
with the calendar fields range-checked (the month length itself is not
re-derived; DatetimeMarkup only emits real dates). -/
def parseStart (s : String) : Option StartDT :=
  match pySplit s " " with
  | [dpart, tpart] =>
    match pySplit dpart "-", pySplit tpart ":" with
    | [ys, mos, das], [hs, mis] =>
      match digitsToNat? ys.toList, digitsToNat? mos.toList, digitsToNat? das.toList,
          digitsToNat? hs.toList, digitsToNat? mis.toList with
      | some y, some mo, some da, some h, some mi =>
        if 1 ≤ mo && mo ≤ 12 && 1 ≤ da && da ≤ 31 && h ≤ 23 && mi ≤ 59 then
          some ⟨y, mo, da, h, mi⟩
        else none
      | _, _, _, _, _ => none
    | _, _ => none
  | _ => none

/-- Auxiliary state for extracting maximal digit runs from a string: the
accumulator holds the value of the run being read, if one is open. -/
def digitRunsAux : List Char → Option Nat → List Nat
  | [], none => []
  | [], some n => [n]
  | c :: cs, acc =>
    if c.isDigit then digitRunsAux cs (some (acc.getD 0 * 10 + (c.toNat - 48)))
    else
      match acc with
      | none => digitRunsAux cs none
      | some n => n :: digitRunsAux cs none

/-- re.findall of the pattern of one or more digits, each run read as an
integer (line 580 of handler.py). -/
def digitRuns (s : String) : List Nat :=
  digitRunsAux s.toList none

/-- Modelled from the spec: FreqCustomMarkup.valid_freq (markups/ is not
under src/); per spec section 4.3 an arbitrary days/hours/minutes period is
accepted with a minimum period of 5 minutes. -/
def validFreq (days hours minutes : Nat) : Bool :=
  5 ≤ (days * 24 + hours) * 60 + minutes

/-- Modelled from the spec: the fixed cadence labels returned by FreqMarkup
(markups/ is not under src/); uninterpreted tokens compared by equality. -/
def freqHourly : String := "Hourly"

/-- Modelled from the spec: the daily cadence label (see freqHourly). -/
def freqDaily : String := "Daily"

/-- Modelled from the spec: the weekly cadence label (see freqHourly). -/
def freqWeekly : String := "Weekly"

/-- Modelled from the spec: the monthly cadence label (see freqHourly). -/
def freqMonthly : String := "Monthly"

/-- The cadence dispatch of _confirm_add (lines 566-588): hourly and weekly
register repeating triggers first firing at the start instant; daily and
monthly register the start clock time (and day of month); any other cadence
phrase must contain exactly three digit runs forming a valid custom period,
registered as a repeating trigger first firing at the start instant. -/
def triggerFor (freq : String) (dt : StartDT) : Option Trigger :=
  if freq = freqHourly then some (.repeating (60 * 60) dt)
  else if freq = freqDaily then some (.daily dt.hour dt.minute)
  else if freq = freqWeekly then some (.repeating (60 * 60 * 24 * 7) dt)
  else if freq = freqMonthly then some (.monthly dt.hour dt.minute dt.day)
  else
    match digitRuns freq with
    | [days, hours, minutes] =>
      if validFreq days hours minutes then
        some (.repeating (60 * ((days * 24 + hours) * 60 + minutes)) dt)
      else none
    | _ => none

/-- The outcome of a scheduler-menu step: the (possibly updated) job queue,
the _CURRENT_JOB slot and the returned state token. -/
structure SchedOut where
  queue : List Job
  currentJob : Option String
  token : Token
deriving DecidableEq, Repr

/-- _start_date on a completed date selection (lines 493-507): derive the job
name from the pending cadence phrase and the selected start string; if a job
with the identical name already exists the selection is rejected with an
alert and everything is left unchanged; otherwise the markup is dropped, the
derived name becomes the pending job and confirmation is requested. -/
def startDate (queue : List Job) (freq : String) (result : String) : SchedOut :=
  let jobName := freq ++ ", starting from " ++ result
  if !(getJobsByName queue jobName).isEmpty then ⟨queue, some freq, .selectStart⟩
  else ⟨queue, some jobName, .confirmAdd⟩

/-- _confirm_add (lines 511-597): split the pending derived name back into
cadence phrase and start string (fatal if the shape or the callback data or
the start instant or the cadence is unrecognised); on confirmation register
exactly one job under the derived name with the trigger of the cadence; on
refusal register nothing.  Either way the pending job slot is cleared. -/
def confirmAdd (queue : List Job) (currentJob : Option String) (data : Option Bool) : SchedOut :=
  match currentJob with
  | none => ⟨queue, none, .stopping⟩
  | some jobName =>
    match pySplit jobName ", starting from " with
    | [freq, start] =>
      match data with
      | none => ⟨queue, some jobName, .stopping⟩
      | some c =>
        match parseStart start with
        | none => ⟨queue, some jobName, .stopping⟩
        | some dt =>
          if c then
            match triggerFor freq dt with
            | some trig => ⟨queue ++ [⟨jobName, trig⟩], none, .cancel⟩
            | none => ⟨queue, some jobName, .stopping⟩
          else ⟨queue, none, .cancel⟩
    | _ => ⟨queue, some jobName, .stopping⟩

/-- Characters with surrounding whitespace stripped. -/
def trimChars (l : List Char) : List Char :=
  ((l.dropWhile Char.isWhitespace).reverse.dropWhile Char.isWhitespace).reverse

/-- Python int() on a string: surrounding whitespace stripped, an optional
sign, then decimal digits (digit-group underscores are not modelled; no input
of the bot produces them). -/
def pyInt? (s : String) : Option Int :=
  match trimChars s.toList with
  | '-' :: rest => (digitsToNat? rest).map (fun n => -(n : Int))
  | '+' :: rest => (digitsToNat? rest).map (fun n => (n : Int))
  | t => (digitsToNat? t).map (fun n => (n : Int))

/-- The duration validation of DurationQuestion.answer (lines 144-151 of
duration.py): the input must split on ":" into exactly three integer parts
hour, minute, second with 0 <= hour <= 72, 0 <= minute <= 59 and
0 <= second <= 59. -/
def durationParse (s : String) : Option (Int × Int × Int) :=
  match pySplit s ":" with
  | [hs, ms, ss] =>
    match pyInt? hs, pyInt? ms, pyInt? ss with
    | some h, some m, some sec =>
      if 0 ≤ h && h ≤ 72 && 0 ≤ m && m ≤ 59 && 0 ≤ sec && sec ≤ 59 then some (h, m, sec)
      else none
    | _, _, _ => none
  | _ => none

/-- DurationQuestion.answer: when the cached answer elements are missing or
stale, get_info is re-run and a non-success outcome (scripted) is cascaded
without touching the form; otherwise the duration string is validated and, if
valid, the hour, minute and second values are clicked-and-typed in order into
the three cached input fields (recorded as (field index, value) sends) and
True is returned; an invalid string returns False with no sends. -/
def durationAnswer (elementsValid : Bool) (getInfoRes : Option Bool) (duration : String) :
    Option Bool × List (Nat × Int) :=
  if !elementsValid && getInfoRes ≠ some true then (getInfoRes, [])
  else
    match durationParse duration with
    | some (h, m, sec) => (some true, [(0, h), (1, m), (2, sec)])
    | none => (some false, [])

/-- The form link carried by the _PROCESSOR slot value: the idle link itself,
or the link held by the active FormProcessor handle. -/
def procLink : String ⊕ Driver → String
  | .inl l => l
  | .inr d => d.link

theorem setProc_self (s : UserData) (x : Option (String ⊕ Driver)) (h : s.processor = x) :
    { s with processor := x } = s := by
  cases s
  simp_all

theorem removeCurrentPointers_processor (s : UserData) :
    (removeCurrentPointers s).processor = s.processor := rfl

theorem submitToGoogleForms_fst (ok : Option Bool) (parts : List (Option AnsPart))
    (h : parts ≠ []) : (submitToGoogleForms ok parts).1 = ok := by
  unfold submitToGoogleForms
  match parts with
  | [] => exact absurd rfl h
  | p :: rest => dsimp only; split <;> rfl

theorem submitToGoogleForms_fst_true (parts : List (Option AnsPart)) :
    (submitToGoogleForms (some true) parts).1 = some true := by
  unfold submitToGoogleForms
  match parts with
  | [] => rfl
  | p :: rest => dsimp only; split <;> rfl

theorem ite_state_processor (c : Prop) [Decidable c] (s : UserData) (x : Option CurAns) :
    (if c then { s with currentAnswer := x } else s).processor = s.processor := by
  split <;> rfl

/-- Well-behavedness of a question-display outcome, relative to the state the
display started from and the preference that was looked up: the outcome is
final (the display never auto-submits), it makes no driver submit call, it
leaves the _PROCESSOR slot untouched, and when it asks the user to confirm an
answer the prompt is the saved-answer prompt exactly for an AskAgain
preference and the recommendation prompt otherwise. -/
def GoodFinal (s : UserData) (pref? : Option String) : ProcOut → Prop
  | .final t s2 ps evs =>
    evs = [] ∧ s2.processor = s.processor
    ∧ (t = .confirmSubmit →
        ps = [if pref? = some savePrefAsk then Prompt.confirmSaved else Prompt.recommend])
  | .recurse _ => False

theorem GoodFinal.cast {s s2 : UserData} {pref? : Option String} {po : ProcOut}
    (h : GoodFinal s2 pref? po) (hp : s2.processor = s.processor) : GoodFinal s pref? po := by
  cases po with
  | final t s3 ps evs => exact ⟨h.1, h.2.1.trans hp, h.2.2⟩
  | recurse evs => exact h

theorem markupRegion_good (s : UserData) (qd : QuestionData) (pref? : Option String) :
    GoodFinal s pref? (markupRegion s qd) := by
  unfold markupRegion
  repeat' split
  all_goals simp [GoodFinal]

theorem displayTail_good (tp : Bool) (s : UserData) (qd : QuestionData)
    (answer? : Option CurAns) (pref? : Option String) (subQ? : Option String) :
    GoodFinal s pref? (displayTail tp s qd answer? pref? subQ?) := by
  unfold displayTail promptConfirm
  split
  · repeat' split
    all_goals try (rcases hca : s.currentAnswer with _ | ca <;> simp only [hca] <;>
      try rcases ca with p | m)
    all_goals simp_all [GoodFinal]
  · exact markupRegion_good s qd pref?

theorem displayRegion_good (tp : Bool) (s : UserData) (qd : QuestionData)
    (answer? : Option CurAns) (pref? : Option String) :
    GoodFinal s pref? (displayRegion tp s qd answer? pref?) := by
  unfold displayRegion
  split
  · rcases hca : s.currentAnswer with _ | ca <;>
      simp only [hca, reduceIte, reduceCtorEq, Option.some.injEq] <;> try rcases ca with p | m
    all_goals repeat' split
    all_goals try (exact (displayTail_good ..).cast rfl)
    all_goals simp_all [GoodFinal]
  · exact displayTail_good ..

/-- The _PROCESSOR slot survives the outcome of one question-processing step
unchanged. -/
def ProcessorKept (s : UserData) : ProcOut → Prop
  | .final _ s2 _ _ => s2.processor = s.processor
  | .recurse _ => True

theorem GoodFinal.processorKept {s : UserData} {pref? : Option String} {po : ProcOut}
    (h : GoodFinal s pref? po) : ProcessorKept s po := by
  cases po with
  | final t s2 ps evs => exact h.2.1
  | recurse evs => trivial

theorem driverOf_link (p : String ⊕ Driver) : (driverOf p).link = procLink p := by
  cases p <;> rfl

theorem processQuestion_processorKept (tp : Bool) (s : UserData) (qd : QuestionData) :
    ProcessorKept s (processQuestion tp s qd) := by
  unfold processQuestion
  dsimp only
  repeat' split
  all_goals try exact (displayRegion_good ..).processorKept
  all_goals simp [ProcessorKept]

theorem fetchLoop_processor (d : Driver) (script : List Fetch) :
    ∀ (tp : Bool) (s : UserData), s.processor = some (.inr d) →
      (fetchLoop tp d s script).state.processor = some (.inr d)
      ∨ (fetchLoop tp d s script).state.processor = some (.inl d.link) := by
  induction script with
  | nil => intro tp s h; left; exact h
  | cons f rest ih =>
    intro tp s h
    cases f with
    | complete => right; rfl
    | failed => left; exact h
    | q qd i0 retries =>
      simp only [fetchLoop]
      split
      · left; exact h
      · have hkept := processQuestion_processorKept tp { s with currentQuestion := some qd } qd
        rcases hpq : processQuestion tp { s with currentQuestion := some qd } qd with
          ⟨t, s2, ps, evs⟩ | evs
        · rw [hpq] at hkept
          simp only [hpq]
          left
          exact hkept.trans h
        · simp only [hpq]
          exact ih true _ h

theorem obtainQuestion_processor (tp : Bool) (s : UserData) (script : List Fetch)
    (p : String ⊕ Driver) (h : s.processor = some p) :
    ∃ p2, (obtainQuestion tp s script).state.processor = some p2
      ∧ procLink p2 = procLink p := by
  obtain ⟨sp, scq, sca, scm, ssp⟩ := s
  dsimp only at h
  subst h
  cases scq with
  | none =>
    rcases fetchLoop_processor (driverOf p) script tp
        ⟨some (.inr (driverOf p)), none, sca, scm, ssp⟩ rfl with hres | hres
    · exact ⟨.inr (driverOf p), hres, driverOf_link p⟩
    · exact ⟨.inl (driverOf p).link, hres, driverOf_link p⟩
  | some qd =>
    have hkept := processQuestion_processorKept tp
      ⟨some (.inr (driverOf p)), some qd, sca, scm, ssp⟩ qd
    rcases hpq : processQuestion tp ⟨some (.inr (driverOf p)), some qd, sca, scm, ssp⟩ qd with
      ⟨t, s2, ps, evs⟩ | evs
    · rw [hpq] at hkept
      refine ⟨.inr (driverOf p), ?_, driverOf_link p⟩
      show (obtainQuestion tp ⟨some p, some qd, sca, scm, ssp⟩ script).state.processor = _
      simp only [obtainQuestion, hpq]
      exact hkept
    · have hrec := fetchLoop_processor (driverOf p) script true
        (removeCurrentPointers ⟨some (.inr (driverOf p)), some qd, sca, scm, ssp⟩) rfl
      have hout : (obtainQuestion tp ⟨some p, some qd, sca, scm, ssp⟩ script).state
          = (fetchLoop true (driverOf p)
              (removeCurrentPointers ⟨some (.inr (driverOf p)), some qd, sca, scm, ssp⟩)
              script).state := by
        simp only [obtainQuestion, hpq]
      rw [hout]
      rcases hrec with hres | hres
      · exact ⟨.inr (driverOf p), hres, driverOf_link p⟩
      · exact ⟨.inl (driverOf p).link, hres, driverOf_link p⟩

theorem saveRegion_processor (s : UserData) (qd : QuestionData) (ca : CurAns)
    (evs : List SubmitEvent) (script : List Fetch) (p : String ⊕ Driver)
    (h : s.processor = some p) :
    ∃ p2, (saveRegion s qd ca evs script).state.processor = some p2
      ∧ procLink p2 = procLink p := by
  simp only [saveRegion]
  repeat' split
  all_goals try exact ⟨p, h, rfl⟩
  all_goals exact obtainQuestion_processor true _ script p h

theorem submitAnswer_processor (s : UserData) (data : Option Bool) (script : List Fetch)
    (p : String ⊕ Driver) (h : s.processor = some p) :
    ∃ p2, (submitAnswer s data script).state.processor = some p2
      ∧ procLink p2 = procLink p := by
  obtain ⟨sp, scq, sca, scm, ssp⟩ := s
  dsimp only at h
  subst h
  cases sca with
  | none => exact ⟨p, rfl, rfl⟩
  | some ca =>
    cases scq with
    | none => exact ⟨p, rfl, rfl⟩
    | some qd =>
      cases p with
      | inl l => exact ⟨.inl l, rfl, rfl⟩
      | inr d =>
        simp only [submitAnswer]
        repeat' split
        all_goals try exact ⟨.inr d, rfl, rfl⟩
        all_goals try (refine saveRegion_processor _ qd ca _ script (.inr d) ?_; rfl)
        all_goals refine obtainQuestion_processor _ _ script (.inr d) ?_
        all_goals rfl

theorem autoSubmit_processor (s : UserData) (script : List Fetch)
    (p : String ⊕ Driver) (h : s.processor = some p) :
    ∃ p2, (autoSubmit s script).state.processor = some p2 ∧ procLink p2 = procLink p := by
  obtain ⟨sp, scq, sca, scm, ssp⟩ := s
  dsimp only at h
  subst h
  cases p with
  | inr d => exact ⟨.inr d, rfl, rfl⟩
  | inl l =>
    obtain ⟨p2, hp2, hl2⟩ :=
      obtainQuestion_processor true ⟨some (.inl l), scq, sca, scm, ssp⟩ script (.inl l) rfl
    simp only [autoSubmit]
    split
    · have hrp : (removeCurrentPointers
          (obtainQuestion true ⟨some (.inl l), scq, sca, scm, ssp⟩ script).state).processor
          = some p2 := hp2
      rw [hrp]
      cases p2 with
      | inl l2 => exact ⟨.inl l2, hrp, hl2⟩
      | inr d2 => exact ⟨.inl d2.link, rfl, hl2⟩
    · exact ⟨p2, hp2, hl2⟩

/-- C1: At every observable point after a session is initialized with a form
link, the session _PROCESSOR slot holds exactly one of an idle form-link
string or an active FormProcessor driver handle — never both and never
neither (the slot is a single value of the sum type String plus Driver, so it
can never hold both; the theorem shows it also never becomes empty), and
every operation that releases the driver stores the idle link back into that
same slot: across _obtain_question, _submit_answer and _auto_submit the slot
stays populated and the form link it carries (idle link, or link held by the
active handle that would be stored back on release) is preserved. -/
theorem c1_driver_slot_exclusive_and_link_preserved (s : UserData) (script : List Fetch)
    (tp : Bool) (data : Option Bool) (p : String ⊕ Driver) (h : s.processor = some p) :
    (∃ p2, (obtainQuestion tp s script).state.processor = some p2
        ∧ procLink p2 = procLink p)
    ∧ (∃ p2, (submitAnswer s data script).state.processor = some p2
        ∧ procLink p2 = procLink p)
    ∧ (∃ p2, (autoSubmit s script).state.processor = some p2
        ∧ procLink p2 = procLink p) :=
  ⟨obtainQuestion_processor tp s script p h,
   submitAnswer_processor s data script p h,
   autoSubmit_processor s script p h⟩

/-- Witness for C1 at a concrete session holding the idle link "L". -/
theorem c1_witness :
    (∃ p2, (obtainQuestion true ⟨some (.inl "L"), none, none, none, none⟩ [.complete]).state.processor
        = some p2 ∧ procLink p2 = procLink (.inl "L"))
    ∧ (∃ p2, (submitAnswer ⟨some (.inl "L"), none, none, none, none⟩ none [.complete]).state.processor
        = some p2 ∧ procLink p2 = procLink (.inl "L"))
    ∧ (∃ p2, (autoSubmit ⟨some (.inl "L"), none, none, none, none⟩ [.complete]).state.processor
        = some p2 ∧ procLink p2 = procLink (.inl "L")) :=
  c1_driver_slot_exclusive_and_link_preserved
    ⟨some (.inl "L"), none, none, none, none⟩ [.complete] true none (.inl "L") rfl

/-- C2: whenever a scheduled job fires while the owning session already holds
an active FormProcessor handle, the fire returns immediately: the session
state is unchanged and no prompt is emitted and no driver submit call is made
— a silent no-op on that trigger, so a fire never runs a second traversal
next to an in-flight one. -/
theorem c2_fire_with_active_driver_is_silent_noop (s : UserData) (script : List Fetch)
    (d : Driver) (h : s.processor = some (.inr d)) :
    autoSubmit s script = ⟨.noop, s, [], []⟩ := by
  unfold autoSubmit
  rw [h]

/-- Witness for C2: a concrete fire against a session with an active handle. -/
theorem c2_witness :
    autoSubmit ⟨some (.inr ⟨"L"⟩), none, none, none, none⟩ [.complete]
      = ⟨.noop, ⟨some (.inr ⟨"L"⟩), none, none, none, none⟩, [], []⟩ :=
  c2_fire_with_active_driver_is_silent_noop _ _ ⟨"L"⟩ rfl

theorem processQuestion_alwaysSave (tp : Bool) (s : UserData) (qd : QuestionData)
    (prefs : List (PrefKey × LocalEntry)) (entry : LocalEntry) (a : CurAns)
    (hlp : activeLocalPrefs tp s = some prefs)
    (hx : lookupPK prefs (prefKeyOf qd) = some entry)
    (hpref : entry.pref = savePrefAlways)
    (hans : entry.answer = some a)
    (htr : curAnsTruthy a = true)
    (hok : qd.submitOk = some true) :
    processQuestion tp s qd = .recurse (submitToGoogleForms (some true) (partsOf a)).2 := by
  unfold processQuestion
  rw [hlp]
  simp only [hx, hans, hok, htr, hpref, savePrefIsOption, submitToGoogleForms_fst_true]
  simp

theorem processQuestion_noExact (tp : Bool) (s : UserData) (qd : QuestionData)
    (prefs : List (PrefKey × LocalEntry))
    (hlp : activeLocalPrefs tp s = some prefs)
    (hnx : lookupPK prefs (prefKeyOf qd) = none) :
    processQuestion tp s qd
      = displayRegion tp s qd
          (match closeMatchFind (prefKeyOf qd) prefs with
           | some (_, e) => e.answer
           | none => none) none := by
  unfold processQuestion
  rw [hlp]
  simp only [hnx]

theorem partsOf_ne_nil (a : CurAns) (h : curAnsTruthy a = true) : partsOf a ≠ [] := by
  cases a with
  | plain p =>
    cases p with
    | s v => simp [partsOf]
    | t vs =>
      simp only [curAnsTruthy, Bool.not_eq_true', List.isEmpty_eq_false] at h
      simp [partsOf, h]
  | grid m =>
    simp only [curAnsTruthy, Bool.not_eq_true', List.isEmpty_eq_false] at h
    simp [partsOf, h]

theorem submitToGoogleForms_events (ok : Option Bool) (parts : List (Option AnsPart))
    (hne : parts ≠ [])
    (h1 : parts.head? ≠ some (some (.s skipSentinel)))
    (h2 : parts.head? ≠ some (some (.s "/skip"))) :
    (submitToGoogleForms ok parts).2 = [.answer parts] := by
  unfold submitToGoogleForms
  match parts with
  | [] => exact absurd rfl hne
  | p :: rest =>
    simp only [List.head?] at h1 h2
    dsimp only
    rw [if_neg]
    simp only [Bool.or_eq_true, decide_eq_true_eq, not_or]
    exact ⟨fun hp => h1 (by rw [hp]), fun hp => h2 (by rw [hp])⟩

/-- C3: a question whose identity has an exact per-question preference entry
with policy AlwaysSave and a non-empty saved answer is auto-submitted: the
engine forwards the saved answer parts (grid-mapping values or tuple parts,
in order) to the form driver in a single answer call and then behaves exactly
as the traversal on the next question with the current pointers cleared —
same token, state and prompts, so no user prompt happens in between.  (The
hypotheses on the first part exclude the skip sentinel, which would take the
skip path of the driver instead.) -/
theorem c3_exact_always_save_auto_submits (s : UserData) (script : List Fetch) (d : Driver)
    (qd : QuestionData) (sp : SavePrefs) (prefs : List (PrefKey × LocalEntry))
    (entry : LocalEntry) (a : CurAns)
    (hproc : s.processor = some (.inr d))
    (hq : s.currentQuestion = some qd)
    (hsp : s.savePrefs = some sp)
    (hlm : sp.localMap = some prefs)
    (hx : lookupPK prefs (prefKeyOf qd) = some entry)
    (hpref : entry.pref = savePrefAlways)
    (hans : entry.answer = some a)
    (htr : curAnsTruthy a = true)
    (hok : qd.submitOk = some true)
    (hsk1 : (partsOf a).head? ≠ some (some (.s skipSentinel)))
    (hsk2 : (partsOf a).head? ≠ some (some (.s "/skip"))) :
    obtainQuestion true s script =
      ⟨(obtainQuestion true (removeCurrentPointers s) script).token,
       (obtainQuestion true (removeCurrentPointers s) script).state,
       (obtainQuestion true (removeCurrentPointers s) script).prompts,
       SubmitEvent.answer (partsOf a)
         :: (obtainQuestion true (removeCurrentPointers s) script).submits⟩ := by
  obtain ⟨sp0, scq, sca, scm, ssp⟩ := s
  dsimp only at hproc hq hsp
  subst hproc
  subst hq
  subst hsp
  have hlp : activeLocalPrefs true ⟨some (.inr d), some qd, sca, scm, some sp⟩ = some prefs := by
    simp [activeLocalPrefs, hlm]
  have hpq := processQuestion_alwaysSave true ⟨some (.inr d), some qd, sca, scm, some sp⟩
    qd prefs entry a hlp hx hpref hans htr hok
  have hevs : (submitToGoogleForms (some true) (partsOf a)).2
      = [SubmitEvent.answer (partsOf a)] :=
    submitToGoogleForms_events _ _ (partsOf_ne_nil a htr) hsk1 hsk2
  simp only [obtainQuestion, driverOf, removeCurrentPointers]
  rw [hpq, hevs]
  simp

/-- C5: when no exact per-question entry exists for the identity of the
current question, the traversal step makes no driver submit call at all —
even when the close-match scan finds an entry whose policy is AlwaysSave, the
policy is discarded — and whenever the step asks for an answer confirmation
it surfaces the close-match answer as a recommendation prompt that requires
explicit user confirmation before any submission can happen. -/
theorem c5_close_match_never_auto_submitted (s : UserData) (script : List Fetch) (d : Driver)
    (qd : QuestionData) (sp : SavePrefs) (prefs : List (PrefKey × LocalEntry))
    (hproc : s.processor = some (.inr d))
    (hq : s.currentQuestion = some qd)
    (hsp : s.savePrefs = some sp)
    (hlm : sp.localMap = some prefs)
    (hnx : lookupPK prefs (prefKeyOf qd) = none) :
    (obtainQuestion true s script).submits = []
    ∧ ((obtainQuestion true s script).token = .confirmSubmit →
        (obtainQuestion true s script).prompts = [Prompt.recommend]) := by
  obtain ⟨sp0, scq, sca, scm, ssp⟩ := s
  dsimp only at hproc hq hsp
  subst hproc
  subst hq
  subst hsp
  have hlp : activeLocalPrefs true ⟨some (.inr d), some qd, sca, scm, some sp⟩ = some prefs := by
    simp [activeLocalPrefs, hlm]
  have hpq := processQuestion_noExact true ⟨some (.inr d), some qd, sca, scm, some sp⟩
    qd prefs hlp hnx
  have hgood := displayRegion_good true ⟨some (.inr d), some qd, sca, scm, some sp⟩ qd
    (match closeMatchFind (prefKeyOf qd) prefs with
     | some (_, e) => e.answer
     | none => none) none
  rcases hdr : displayRegion true ⟨some (.inr d), some qd, sca, scm, some sp⟩ qd
      (match closeMatchFind (prefKeyOf qd) prefs with
       | some (_, e) => e.answer
       | none => none) none with ⟨t, s2, ps, evs⟩ | evs
  · rw [hdr] at hgood
    simp only [GoodFinal] at hgood
    obtain ⟨hevs, hsp2, hconf⟩ := hgood
    subst hevs
    simp only [obtainQuestion, driverOf]
    rw [hpq, hdr]
    refine ⟨rfl, fun ht => ?_⟩
    simpa using hconf ht
  · rw [hdr] at hgood
    exact absurd hgood (by simp [GoodFinal])

theorem find?_first_decomp {α : Type} (p : α → Bool) :
    ∀ (l : List α) (a : α), l.find? p = some a →
      ∃ pre suf, l = pre ++ a :: suf ∧ ∀ x ∈ pre, p x = false := by
  intro l
  induction l with
  | nil => intro a h; simp at h
  | cons b rest ih =>
    intro a h
    by_cases hb : p b = true
    · rw [List.find?_cons_of_pos _ hb] at h
      injection h with h
      subst h
      exact ⟨[], rest, rfl, by simp⟩
    · rw [List.find?_cons_of_neg _ (by simpa using hb)] at h
      obtain ⟨pre, suf, hl, hall⟩ := ih a h
      refine ⟨b :: pre, suf, by simp [hl], ?_⟩
      intro x hx
      rcases List.mem_cons.mp hx with rfl | hx
      · simpa using hb
      · exact hall x hx

/-- C4: when no exact per-question entry exists for the key, the close-match
scan selects the first stored identity, in insertion order, whose header is
identical to the question header and of whose two non-header fields exactly
one differs; it never selects a candidate whose header differs (the selected
header is equal), and never one where both the description and the required
flag differ (one of the two is always equal). -/
theorem c4_close_match_scan_first_and_sound (k : PrefKey)
    (prefs : List (PrefKey × LocalEntry)) (c : PrefKey) (e : LocalEntry)
    (hnx : lookupPK prefs k = none)
    (hfind : closeMatchFind k prefs = some (c, e)) :
    c.header = k.header
    ∧ ((c.description = k.description ∧ c.required ≠ k.required)
       ∨ (c.description ≠ k.description ∧ c.required = k.required))
    ∧ ∃ pre suf, prefs = pre ++ (c, e) :: suf
        ∧ ∀ x ∈ pre, closeMatchPred k x.1 = false := by
  have hfind2 : prefs.find? (fun x => closeMatchPred k x.1) = some (c, e) := hfind
  have hp := List.find?_some hfind2
  simp only [closeMatchPred, Bool.and_eq_true, Bool.or_eq_true, decide_eq_true_eq] at hp
  obtain ⟨hh, hor⟩ := hp
  have hmem : (c, e) ∈ prefs := List.mem_of_find?_eq_some hfind2
  have hfn : prefs.find? (fun x => decide (x.1 = k)) = none := by
    rcases hfq : prefs.find? (fun x => decide (x.1 = k)) with _ | x
    · exact hfq
    · rw [lookupPK, hfq] at hnx
      simp at hnx
  have hck : ¬(c = k) := by
    intro hck
    have := (List.find?_eq_none.mp hfn) (c, e) hmem
    simp [hck] at this
  refine ⟨hh, ?_, find?_first_decomp _ prefs (c, e) hfind2⟩
  by_cases hd : c.description = k.description
  · by_cases hr : c.required = k.required
    · exfalso
      apply hck
      obtain ⟨ch, cd, cr⟩ := c
      obtain ⟨kh, kd, kr⟩ := k
      simp_all
    · exact Or.inl ⟨hd, hr⟩
  · rcases hor with hor | hor
    · exact absurd hor hd
    · exact Or.inr ⟨hd, hor⟩

/-- Witness for C4: the scan skips a stored identity with a different header
and selects the later one whose header matches with only the description
differing. -/
theorem c4_witness :
    (⟨"H", "D2", true⟩ : PrefKey).header = (⟨"H", "D", true⟩ : PrefKey).header
    ∧ (((⟨"H", "D2", true⟩ : PrefKey).description = (⟨"H", "D", true⟩ : PrefKey).description
        ∧ (⟨"H", "D2", true⟩ : PrefKey).required ≠ (⟨"H", "D", true⟩ : PrefKey).required)
       ∨ ((⟨"H", "D2", true⟩ : PrefKey).description ≠ (⟨"H", "D", true⟩ : PrefKey).description
        ∧ (⟨"H", "D2", true⟩ : PrefKey).required = (⟨"H", "D", true⟩ : PrefKey).required))
    ∧ ∃ pre suf,
        [((⟨"X", "D", true⟩ : PrefKey), (⟨savePrefAsk, none⟩ : LocalEntry)),
         (⟨"H", "D2", true⟩, ⟨savePrefAlways, some (.plain (.s "rec"))⟩)]
          = pre ++ (⟨"H", "D2", true⟩, (⟨savePrefAlways, some (.plain (.s "rec"))⟩ : LocalEntry)) :: suf
        ∧ ∀ x ∈ pre, closeMatchPred ⟨"H", "D", true⟩ x.1 = false :=
  c4_close_match_scan_first_and_sound ⟨"H", "D", true⟩
    [(⟨"X", "D", true⟩, ⟨savePrefAsk, none⟩),
     (⟨"H", "D2", true⟩, ⟨savePrefAlways, some (.plain (.s "rec"))⟩)]
    ⟨"H", "D2", true⟩ ⟨savePrefAlways, some (.plain (.s "rec"))⟩ (by decide) (by decide)

/-- Witness for C3: a stored text question with an exact AlwaysSave entry and
saved answer "ans" is auto-submitted and the traversal continues on the
cleared session. -/
theorem c3_witness :
    obtainQuestion true
      ⟨some (.inr ⟨"L"⟩), some ⟨"H", "D", true, .text, [], some true⟩, none, none,
       some ⟨none, some [(⟨"H", "D", true⟩, ⟨savePrefAlways, some (.plain (.s "ans"))⟩)]⟩⟩
      [.complete] =
      ⟨(obtainQuestion true
          (removeCurrentPointers
            ⟨some (.inr ⟨"L"⟩), some ⟨"H", "D", true, .text, [], some true⟩, none, none,
             some ⟨none, some [(⟨"H", "D", true⟩, ⟨savePrefAlways, some (.plain (.s "ans"))⟩)]⟩⟩)
          [.complete]).token,
       (obtainQuestion true
          (removeCurrentPointers
            ⟨some (.inr ⟨"L"⟩), some ⟨"H", "D", true, .text, [], some true⟩, none, none,
             some ⟨none, some [(⟨"H", "D", true⟩, ⟨savePrefAlways, some (.plain (.s "ans"))⟩)]⟩⟩)
          [.complete]).state,
       (obtainQuestion true
          (removeCurrentPointers
            ⟨some (.inr ⟨"L"⟩), some ⟨"H", "D", true, .text, [], some true⟩, none, none,
             some ⟨none, some [(⟨"H", "D", true⟩, ⟨savePrefAlways, some (.plain (.s "ans"))⟩)]⟩⟩)
          [.complete]).prompts,
       SubmitEvent.answer (partsOf (.plain (.s "ans")))
         :: (obtainQuestion true
              (removeCurrentPointers
                ⟨some (.inr ⟨"L"⟩), some ⟨"H", "D", true, .text, [], some true⟩, none, none,
                 some ⟨none, some [(⟨"H", "D", true⟩, ⟨savePrefAlways, some (.plain (.s "ans"))⟩)]⟩⟩)
              [.complete]).submits⟩ :=
  c3_exact_always_save_auto_submits _ [.complete] ⟨"L"⟩ ⟨"H", "D", true, .text, [], some true⟩
    ⟨none, some [(⟨"H", "D", true⟩, ⟨savePrefAlways, some (.plain (.s "ans"))⟩)]⟩
    [(⟨"H", "D", true⟩, ⟨savePrefAlways, some (.plain (.s "ans"))⟩)]
    ⟨savePrefAlways, some (.plain (.s "ans"))⟩ (.plain (.s "ans"))
    rfl rfl rfl rfl (by decide) rfl rfl (by decide) rfl (by decide) (by decide)

/-- Witness for C5: a stored question whose key has no exact entry but a
close match with an AlwaysSave policy makes no submit call and surfaces a
recommendation. -/
theorem c5_witness :
    (obtainQuestion true
      ⟨some (.inr ⟨"L"⟩), some ⟨"H", "D", true, .text, [], some true⟩, none, none,
       some ⟨none, some [(⟨"H", "D2", true⟩, ⟨savePrefAlways, some (.plain (.s "rec"))⟩)]⟩⟩
      []).submits = []
    ∧ ((obtainQuestion true
        ⟨some (.inr ⟨"L"⟩), some ⟨"H", "D", true, .text, [], some true⟩, none, none,
         some ⟨none, some [(⟨"H", "D2", true⟩, ⟨savePrefAlways, some (.plain (.s "rec"))⟩)]⟩⟩
        []).token = .confirmSubmit →
       (obtainQuestion true
        ⟨some (.inr ⟨"L"⟩), some ⟨"H", "D", true, .text, [], some true⟩, none, none,
         some ⟨none, some [(⟨"H", "D2", true⟩, ⟨savePrefAlways, some (.plain (.s "rec"))⟩)]⟩⟩
        []).prompts = [Prompt.recommend]) :=
  c5_close_match_never_auto_submitted _ [] ⟨"L"⟩ ⟨"H", "D", true, .text, [], some true⟩
    ⟨none, some [(⟨"H", "D2", true⟩, ⟨savePrefAlways, some (.plain (.s "rec"))⟩)]⟩
    [(⟨"H", "D2", true⟩, ⟨savePrefAlways, some (.plain (.s "rec"))⟩)]
    rfl rfl rfl rfl (by decide)

theorem clearLastFilledAux_of_all_none (m : List (String × Option AnsPart))
    (h : ∀ e ∈ m, e.2 = none) : clearLastFilledAux m = none := by
  induction m with
  | nil => rfl
  | cons e rest ih =>
    have he : e.2 = none := h e (List.mem_cons_self e rest)
    have hrest := ih (fun x hx => h x (List.mem_cons_of_mem e hx))
    unfold clearLastFilledAux
    rw [hrest, he]
    simp

theorem clearLastFilledAux_spec (m : List (String × Option AnsPart))
    (h : ∃ e ∈ m, e.2.isSome = true) :
    ∃ pre k v suf, m = pre ++ (k, some v) :: suf
      ∧ (∀ e ∈ suf, e.2 = none)
      ∧ clearLastFilledAux m = some (pre ++ (k, none) :: suf) := by
  induction m with
  | nil => simp at h
  | cons e rest ih =>
    by_cases hr : ∃ x ∈ rest, x.2.isSome = true
    · obtain ⟨pre, k, v, suf, hm, hsuf, haux⟩ := ih hr
      refine ⟨e :: pre, k, v, suf, by simp [hm], hsuf, ?_⟩
      unfold clearLastFilledAux
      rw [haux]
      rfl
    · have hallnone : ∀ x ∈ rest, x.2 = none := by
        intro x hx
        rcases hxv : x.2 with _ | v
        · rfl
        · exact absurd ⟨x, hx, by simp [hxv]⟩ hr
      have haux := clearLastFilledAux_of_all_none rest hallnone
      obtain ⟨x, hx, hxs⟩ := h
      rcases List.mem_cons.mp hx with he | hx2
      · subst he
        rcases hev : x.2 with _ | v
        · rw [hev] at hxs; simp at hxs
        · refine ⟨[], x.1, v, rest, ?_, hallnone, ?_⟩
          · rw [List.nil_append]
            rw [show x = (x.1, x.2) from rfl, hev]
          · unfold clearLastFilledAux
            rw [haux, hev]
            simp
      · exact absurd ⟨x, hx2, hxs⟩ hr

theorem firstNoneKey_isSome (m : List (String × Option AnsPart)) (k : String)
    (h : (k, none) ∈ m) : (firstNoneKey m).isSome = true := by
  induction m with
  | nil => simp at h
  | cons e rest ih =>
    obtain ⟨ek, ev⟩ := e
    cases ev with
    | none => simp [firstNoneKey]
    | some v =>
      unfold firstNoneKey
      rcases List.mem_cons.mp h with he | hrest
      · simp at he
      · exact ih hrest

/-- After a rejection of a grid answer, the engine re-displays the same grid
question: with the markup popped, preference processing off, and an unfilled
sub-answer present, the stored-question step prompts for input on the same
question and makes no submit call. -/
theorem obtainQuestion_grid_redisplay (d : Driver) (qd : QuestionData)
    (m2 : List (String × Option AnsPart)) (ssp : Option SavePrefs) (script : List Fetch)
    (hkind : qd.kind = .grid)
    (hfk : (firstNoneKey m2).isSome = true) :
    obtainQuestion false ⟨some (.inr d), some qd, some (.grid m2), none, ssp⟩ script
      = ⟨.skipOrAnswer,
         ⟨some (.inr d), some qd, some (.grid m2), some (markupFor qd.kind), ssp⟩,
         [.inputPrompt], []⟩ := by
  obtain ⟨k0, hk0⟩ := Option.isSome_iff_exists.mp hfk
  simp only [obtainQuestion, driverOf]
  have hpq : processQuestion false ⟨some (.inr d), some qd, some (.grid m2), none, ssp⟩ qd
      = displayRegion false ⟨some (.inr d), some qd, some (.grid m2), none, ssp⟩ qd none none :=
    rfl
  rw [hpq]
  unfold displayRegion
  rw [if_pos hkind]
  unfold displayTail markupRegion
  simp [hk0]

/-- C6: when the user rejects the confirmation for a grid question whose
ordered sub-answer mapping has at least one filled entry, exactly the last
filled sub-answer (the most recently filled one, since sub-answers are filled
in insertion order) is reset to None — every entry before it is unchanged and
every entry after it was already unfilled — and the traversal re-prompts the
same question for input rather than advancing, making no submit call. -/
theorem c6_grid_reject_clears_only_last_filled (s : UserData) (script : List Fetch)
    (d : Driver) (qd : QuestionData) (m : List (String × Option AnsPart))
    (hproc : s.processor = some (.inr d))
    (hq : s.currentQuestion = some qd)
    (hkind : qd.kind = .grid)
    (hca : s.currentAnswer = some (.grid m))
    (hfilled : ∃ e ∈ m, e.2.isSome = true) :
    ∃ pre k v suf, m = pre ++ (k, some v) :: suf ∧ (∀ e ∈ suf, e.2 = none)
      ∧ (submitAnswer s (some false) script).state.currentAnswer
          = some (.grid (pre ++ (k, none) :: suf))
      ∧ (submitAnswer s (some false) script).state.currentQuestion = some qd
      ∧ (submitAnswer s (some false) script).token = .skipOrAnswer
      ∧ (submitAnswer s (some false) script).submits = [] := by
  obtain ⟨sp0, scq, sca, scm, ssp⟩ := s
  dsimp only at hproc hq hca
  subst hproc
  subst hq
  subst hca
  obtain ⟨pre, k, v, suf, hm, hsuf, haux⟩ := clearLastFilledAux_spec m hfilled
  have hclf : clearLastFilled m = pre ++ (k, none) :: suf := by
    unfold clearLastFilled
    rw [haux]
    rfl
  have hfk : (firstNoneKey (pre ++ (k, none) :: suf)).isSome = true :=
    firstNoneKey_isSome _ k (by simp)
  have hsub : submitAnswer ⟨some (.inr d), some qd, some (.grid m), scm, ssp⟩
        (some false) script
      = obtainQuestion false
          ⟨some (.inr d), some qd, some (.grid (clearLastFilled m)), none, ssp⟩ script := rfl
  rw [hsub, hclf, obtainQuestion_grid_redisplay d qd _ ssp script hkind hfk]
  exact ⟨pre, k, v, suf, hm, hsuf, rfl, rfl, rfl, rfl⟩

/-- Witness for C6: rejecting a grid with both sub-answers filled clears
exactly the second one and re-prompts. -/
theorem c6_witness :
    ∃ pre k v suf,
      [("r1", some (AnsPart.s "a")), ("r2", some (AnsPart.s "b"))] = pre ++ (k, some v) :: suf
      ∧ (∀ e ∈ suf, e.2 = none)
      ∧ (submitAnswer
          ⟨some (.inr ⟨"L"⟩), some ⟨"G", "", true, .grid, ["r1", "r2"], some true⟩,
           some (.grid [("r1", some (.s "a")), ("r2", some (.s "b"))]),
           some (some .menuM), none⟩
          (some false) []).state.currentAnswer = some (.grid (pre ++ (k, none) :: suf))
      ∧ (submitAnswer
          ⟨some (.inr ⟨"L"⟩), some ⟨"G", "", true, .grid, ["r1", "r2"], some true⟩,
           some (.grid [("r1", some (.s "a")), ("r2", some (.s "b"))]),
           some (some .menuM), none⟩
          (some false) []).state.currentQuestion
          = some ⟨"G", "", true, .grid, ["r1", "r2"], some true⟩
      ∧ (submitAnswer
          ⟨some (.inr ⟨"L"⟩), some ⟨"G", "", true, .grid, ["r1", "r2"], some true⟩,
           some (.grid [("r1", some (.s "a")), ("r2", some (.s "b"))]),
           some (some .menuM), none⟩
          (some false) []).token = .skipOrAnswer
      ∧ (submitAnswer
          ⟨some (.inr ⟨"L"⟩), some ⟨"G", "", true, .grid, ["r1", "r2"], some true⟩,
           some (.grid [("r1", some (.s "a")), ("r2", some (.s "b"))]),
           some (some .menuM), none⟩
          (some false) []).submits = [] :=
  c6_grid_reject_clears_only_last_filled _ [] ⟨"L"⟩
    ⟨"G", "", true, .grid, ["r1", "r2"], some true⟩
    [("r1", some (.s "a")), ("r2", some (.s "b"))]
    rfl rfl rfl rfl ⟨("r1", some (.s "a")), by simp, rfl⟩

theorem submitToGoogleForms_single (ok : Option Bool) (parts : List (Option AnsPart))
    (h : parts ≠ []) : ∃ ev, (submitToGoogleForms ok parts).2 = [ev] := by
  unfold submitToGoogleForms
  match parts with
  | [] => exact absurd rfl h
  | p :: rest =>
    dsimp only
    split
    · exact ⟨.skip, rfl⟩
    · exact ⟨.answer (p :: rest), rfl⟩

/-- C7 counterexample: the claim says metadata retrieval is retried exactly
once before giving up, but on a scripted question whose get_info reports
stale, then stale again after a successful re-discovery, then success, the
source retry loop keeps retrying and succeeds, where the once-only policy of
the spec (specInfoRetryOnce) would already have given up fatally after the
first retry. -/
theorem c7_counterexample :
    infoRetryLoop (some false) [(true, some false), (true, some true)] = some true
    ∧ specInfoRetryOnce (some false) [(true, some false), (true, some true)] = none := by
  constructor <;> rfl

/-- C7 amended: when metadata retrieval reports a stale element, the engine
requests re-discovery and retries repeatedly — once per successful
re-discovery, with no bound — until retrieval stops reporting stale; it gives
up fatally exactly when a re-discovery fails (or retrieval reports a fatal
outcome), and a success needs no retry at all.  Driver submission failures
are still never retried: an AlwaysSave auto-submission whose driver call
fails makes exactly one submit call and stops fatally. -/
theorem c7_amended_stale_retried_until_rediscovery_fails :
    (∀ (n : Nat) (next : Option Bool) (rest : List (Bool × Option Bool)),
      infoRetryLoop (some false) (List.replicate n (true, some false) ++ (true, next) :: rest)
        = infoRetryLoop next rest)
    ∧ (∀ (x : Option Bool) (rest : List (Bool × Option Bool)),
        infoRetryLoop (some false) ((false, x) :: rest) = none)
    ∧ (∀ rest, infoRetryLoop (some true) rest = some true)
    ∧ (∀ rest, infoRetryLoop none rest = none)
    ∧ (∀ (s : UserData) (script : List Fetch) (d : Driver) (qd : QuestionData)
         (sp : SavePrefs) (prefs : List (PrefKey × LocalEntry))
         (entry : LocalEntry) (a : CurAns),
        s.processor = some (.inr d) → s.currentQuestion = some qd →
        s.savePrefs = some sp → sp.localMap = some prefs →
        lookupPK prefs (prefKeyOf qd) = some entry →
        entry.pref = savePrefAlways → entry.answer = some a →
        curAnsTruthy a = true → qd.submitOk = some false →
        (obtainQuestion true s script).token = .stopping
        ∧ ∃ ev, (obtainQuestion true s script).submits = [ev]) := by
  refine ⟨?_, ?_, ?_, ?_, ?_⟩
  · intro n
    induction n with
    | zero => intro next rest; rfl
    | succ k ih =>
      intro next rest
      calc infoRetryLoop (some false)
            (List.replicate (k + 1) (true, some false) ++ (true, next) :: rest)
          = infoRetryLoop (some false)
            (List.replicate k (true, some false) ++ (true, next) :: rest) := rfl
        _ = infoRetryLoop next rest := ih next rest
  · intro x rest; rfl
  · intro rest; cases rest <;> rfl
  · intro rest; cases rest <;> rfl
  · intro s script d qd sp prefs entry a hproc hq hsp hlm hx hpref hans htr hok
    obtain ⟨sp0, scq, sca, scm, ssp⟩ := s
    dsimp only at hproc hq hsp
    subst hproc
    subst hq
    subst hsp
    have hlp : activeLocalPrefs true ⟨some (.inr d), some qd, sca, scm, some sp⟩
        = some prefs := by simp [activeLocalPrefs, hlm]
    have hfst : (submitToGoogleForms qd.submitOk (partsOf a)).1 = some false := by
      rw [hok]
      exact submitToGoogleForms_fst _ _ (partsOf_ne_nil a htr)
    have hpq : processQuestion true ⟨some (.inr d), some qd, sca, scm, some sp⟩ qd
        = .final .stopping ⟨some (.inr d), some qd, sca, scm, some sp⟩ []
            (submitToGoogleForms qd.submitOk (partsOf a)).2 := by
      unfold processQuestion
      rw [hlp]
      simp only [hx, hans, htr, hpref, savePrefIsOption]
      simp [hfst]
    constructor
    · simp only [obtainQuestion, driverOf]
      rw [hpq]
    · obtain ⟨ev, hev⟩ := submitToGoogleForms_single qd.submitOk (partsOf a)
        (partsOf_ne_nil a htr)
      refine ⟨ev, ?_⟩
      simp only [obtainQuestion, driverOf]
      rw [hpq]
      exact hev

/-- Witness for the C7 amended claim: two consecutive stale reports with
successful re-discoveries still end in success, a failed re-discovery is
fatal, and a failing driver submission stops after exactly one submit
call. -/
theorem c7_amended_witness :
    (infoRetryLoop (some false)
        (List.replicate 2 (true, some false) ++ (true, some true) :: [])
      = infoRetryLoop (some true) [])
    ∧ (infoRetryLoop (some false) [(false, some true)] = none)
    ∧ ((obtainQuestion true
          ⟨some (.inr ⟨"L"⟩), some ⟨"H", "D", true, .text, [], some false⟩, none, none,
           some ⟨none, some [(⟨"H", "D", true⟩, ⟨savePrefAlways, some (.plain (.s "ans"))⟩)]⟩⟩
          []).token = .stopping
       ∧ ∃ ev, (obtainQuestion true
          ⟨some (.inr ⟨"L"⟩), some ⟨"H", "D", true, .text, [], some false⟩, none, none,
           some ⟨none, some [(⟨"H", "D", true⟩, ⟨savePrefAlways, some (.plain (.s "ans"))⟩)]⟩⟩
          []).submits = [ev]) :=
  ⟨c7_amended_stale_retried_until_rediscovery_fails.1 2 (some true) [],
   c7_amended_stale_retried_until_rediscovery_fails.2.1 (some true) [],
   c7_amended_stale_retried_until_rediscovery_fails.2.2.2.2 _ [] ⟨"L"⟩
     ⟨"H", "D", true, .text, [], some false⟩
     ⟨none, some [(⟨"H", "D", true⟩, ⟨savePrefAlways, some (.plain (.s "ans"))⟩)]⟩
     [(⟨"H", "D", true⟩, ⟨savePrefAlways, some (.plain (.s "ans"))⟩)]
     ⟨savePrefAlways, some (.plain (.s "ans"))⟩ (.plain (.s "ans"))
     rfl rfl rfl rfl (by decide) rfl rfl (by decide) rfl⟩

/-- C8 counterexample: a fatal traversal failure in an interactive session
(the driver reports the form failed) returns the stopping token while the
_PROCESSOR slot still holds the active driver handle — the driver is not
closed and the idle link is not restored, contradicting the claim that every
fatal traversal failure leaves the session driver-released. -/
theorem c8_counterexample :
    (obtainQuestion true ⟨some (.inr ⟨"L"⟩), none, none, none, none⟩ [.failed]).token
      = .stopping
    ∧ (obtainQuestion true ⟨some (.inr ⟨"L"⟩), none, none, none, none⟩
        [.failed]).state.processor = some (.inr ⟨"L"⟩) := ⟨rfl, rfl⟩

/-- C8 amended: a fatal traversal failure during a scheduled unattended fire
(started from the idle link) leaves the session in a clean, driver-released
state: _auto_submit closes the driver and stores the idle link back into the
_PROCESSOR slot and clears the current-question and current-answer fields
(the markup slot is cleared on the next submit-answer initialisation, not
here).  An interactive fatal failure only returns the stopping token; the
driver is released on the user stop or reset, not by the traversal itself. -/
theorem c8_amended_scheduled_fatal_releases_driver (s : UserData) (script : List Fetch)
    (l : String)
    (hidle : s.processor = some (.inl l))
    (hfatal : (obtainQuestion true s script).token = .stopping) :
    (autoSubmit s script).token = .stopping
    ∧ (autoSubmit s script).state.processor = some (.inl l)
    ∧ (autoSubmit s script).state.currentQuestion = none
    ∧ (autoSubmit s script).state.currentAnswer = none := by
  obtain ⟨sp0, scq, sca, scm, ssp⟩ := s
  dsimp only at hidle
  subst hidle
  obtain ⟨p2, hp2, hl2⟩ :=
    obtainQuestion_processor true ⟨some (.inl l), scq, sca, scm, ssp⟩ script (.inl l) rfl
  simp only [autoSubmit]
  rw [if_pos hfatal]
  have hrp : (removeCurrentPointers
      (obtainQuestion true ⟨some (.inl l), scq, sca, scm, ssp⟩ script).state).processor
      = some p2 := hp2
  rw [hrp]
  cases p2 with
  | inl l2 =>
    have hll : l2 = l := hl2
    subst hll
    exact ⟨rfl, hrp, rfl, rfl⟩
  | inr d2 =>
    have hll : d2.link = l := hl2
    dsimp only
    rw [hll]
    exact ⟨rfl, rfl, rfl, rfl⟩

/-- Witness for the C8 amended claim: an unattended fire on an idle session
whose form fails releases back to the idle link with pointers cleared. -/
theorem c8_amended_witness :
    (autoSubmit ⟨some (.inl "L"), none, none, none, none⟩ [.failed]).token = .stopping
    ∧ (autoSubmit ⟨some (.inl "L"), none, none, none, none⟩ [.failed]).state.processor
        = some (.inl "L")
    ∧ (autoSubmit ⟨some (.inl "L"), none, none, none, none⟩ [.failed]).state.currentQuestion
        = none
    ∧ (autoSubmit ⟨some (.inl "L"), none, none, none, none⟩ [.failed]).state.currentAnswer
        = none :=
  c8_amended_scheduled_fatal_releases_driver _ [.failed] "L" rfl rfl

/-- C9: selecting a start date whose derived job name (cadence phrase plus
", starting from " plus start string) is identical to an existing job for the
session is rejected as a duplicate and leaves the job queue unchanged (the
user is bounced back to the start-date selection); with a fresh derived name
the selection proceeds to confirmation and, on confirmation with a parseable
UTC start and a recognised cadence, exactly one job is appended to the queue
under the derived name carrying the trigger of that cadence (repeating
triggers first fire at the parsed UTC start instant; daily and monthly
triggers carry the start clock time and day of month, as registered by the
code). -/
theorem c9_duplicate_job_rejected_fresh_job_registered (queue : List Job)
    (freq result : String) (dt : StartDT) (trig : Trigger) :
    (getJobsByName queue (freq ++ ", starting from " ++ result) ≠ [] →
      startDate queue freq result = ⟨queue, some freq, .selectStart⟩)
    ∧ (getJobsByName queue (freq ++ ", starting from " ++ result) = [] →
      startDate queue freq result
        = ⟨queue, some (freq ++ ", starting from " ++ result), .confirmAdd⟩)
    ∧ (pySplit (freq ++ ", starting from " ++ result) ", starting from "
          = [freq, result] →
      parseStart result = some dt →
      triggerFor freq dt = some trig →
      confirmAdd queue (some (freq ++ ", starting from " ++ result)) (some true)
        = ⟨queue ++ [⟨freq ++ ", starting from " ++ result, trig⟩], none, .cancel⟩) := by
  refine ⟨?_, ?_, ?_⟩
  · intro hdup
    unfold startDate
    rw [if_pos]
    simpa using hdup
  · intro hfree
    unfold startDate
    rw [if_neg]
    simp [hfree]
  · intro hsplit hparse htrig
    unfold confirmAdd
    dsimp only
    rw [hsplit]
    simp [hparse, htrig]

/-- Witness for C9: an hourly job is registered once with first fire at the
chosen UTC start, and re-selecting the same start date when the job already
exists is rejected with the queue unchanged. -/
theorem c9_witness :
    startDate
      [⟨"Hourly, starting from 2021-05-01 10:30", .repeating 3600 ⟨2021, 5, 1, 10, 30⟩⟩]
      "Hourly" "2021-05-01 10:30"
      = ⟨[⟨"Hourly, starting from 2021-05-01 10:30", .repeating 3600 ⟨2021, 5, 1, 10, 30⟩⟩],
         some "Hourly", .selectStart⟩
    ∧ startDate [] "Hourly" "2021-05-01 10:30"
      = ⟨[], some ("Hourly" ++ ", starting from " ++ "2021-05-01 10:30"), .confirmAdd⟩
    ∧ confirmAdd [] (some ("Hourly" ++ ", starting from " ++ "2021-05-01 10:30")) (some true)
      = ⟨[] ++ [⟨"Hourly" ++ ", starting from " ++ "2021-05-01 10:30",
                .repeating 3600 ⟨2021, 5, 1, 10, 30⟩⟩],
         none, .cancel⟩ :=
  ⟨(c9_duplicate_job_rejected_fresh_job_registered
      [⟨"Hourly, starting from 2021-05-01 10:30", .repeating 3600 ⟨2021, 5, 1, 10, 30⟩⟩]
      "Hourly" "2021-05-01 10:30" ⟨2021, 5, 1, 10, 30⟩
      (.repeating 3600 ⟨2021, 5, 1, 10, 30⟩)).1 (by decide),
   (c9_duplicate_job_rejected_fresh_job_registered [] "Hourly" "2021-05-01 10:30"
      ⟨2021, 5, 1, 10, 30⟩ (.repeating 3600 ⟨2021, 5, 1, 10, 30⟩)).2.1 rfl,
   (c9_duplicate_job_rejected_fresh_job_registered [] "Hourly" "2021-05-01 10:30"
      ⟨2021, 5, 1, 10, 30⟩ (.repeating 3600 ⟨2021, 5, 1, 10, 30⟩)).2.2
      (by rfl) (by rfl) (by rfl)⟩

/-- C10: DurationQuestion.answer with healthy cached answer elements sends
input to the form exactly when the duration string splits on ":" into three
integer parts hour, minute, second within 0..72, 0..59 and 0..59: a valid
string returns True after the three values are typed, in order, into the
hour, minute and second input fields; any other string returns False with
nothing sent. -/
theorem c10_duration_answer_validates_before_sending (i : Option Bool) (s : String) :
    (durationParse s = none → durationAnswer true i s = (some false, []))
    ∧ (∀ h m sec : Int, durationParse s = some (h, m, sec) →
        (0 ≤ h ∧ h ≤ 72 ∧ 0 ≤ m ∧ m ≤ 59 ∧ 0 ≤ sec ∧ sec ≤ 59)
        ∧ durationAnswer true i s = (some true, [(0, h), (1, m), (2, sec)])) := by
  constructor
  · intro hp
    unfold durationAnswer
    simp [hp]
  · intro h m sec hp
    refine ⟨?_, ?_⟩
    · unfold durationParse at hp
      repeat' split at hp
      all_goals simp_all
    · unfold durationAnswer
      simp [hp]

/-- Witness for C10: an invalid string returns False with no sends, and the
duration 10:59:59 is typed field by field. -/
theorem c10_witness :
    durationAnswer true none "oops" = (some false, [])
    ∧ ((0 ≤ (10 : Int) ∧ (10 : Int) ≤ 72 ∧ 0 ≤ (59 : Int) ∧ (59 : Int) ≤ 59
        ∧ 0 ≤ (59 : Int) ∧ (59 : Int) ≤ 59)
       ∧ durationAnswer true none "10:59:59" = (some true, [(0, 10), (1, 59), (2, 59)])) :=
  ⟨(c10_duration_answer_validates_before_sending none "oops").1 (by rfl),
   (c10_duration_answer_validates_before_sending none "10:59:59").2 10 59 59 (by rfl)⟩

end AutoGForm
